import Mathlib

/-!
Verification of the supervised Telegram verification bot (`src/main.py`).

The development shallowly embeds the program:

* Python strings are `List Char`; `str.lower` / `str.upper` / `str.strip` /
  `str.replace` / `str.split` are modelled by executable functions
  (`pyLower`, `pyUpper`, `pyStrip`, `pyReplaceChar`, `pySplit`, `pySplitN`)
  with Python's ASCII-relevant semantics.
* MongoDB documents of the `users` collection are `Doc` records holding the
  fields the program manipulates (`username`, `service`, `source`); the
  collection is a `List Doc` in natural (insertion) order, `find_one` is the
  first match, `update_one ... $set ... upsert=True` modifies the first
  matching document in place, `delete_one` removes the first match.
* The helper functions `format_username`, `get_verified_user`,
  `save_verified_user`, `remove_verified_user`, `escape_markdown`,
  `is_authorized` and the Flask `health` endpoint are translated directly.
* The message handlers are translated with their effects made explicit: an
  `Oracle` says which `bot.reply_to` calls raise and whether database calls
  raise, and each handler returns the final `World` (store + authorization
  set), the list of replies actually delivered, and whether an exception
  escaped the handler.
* `bot_polling` is modelled as the linearized observation trace of one loop
  iteration (`pollIterObs`); the `bot_polling` / `keep_alive` thread pair is
  modelled as an interleaved transition system (`Step`, `Reach`).
-/

/-! ### Python string primitives -/

/-- Whitespace characters recognized by Python's `str.strip` / `str.split`
(ASCII range): space, tab, newline, carriage return, vertical tab, form feed. -/
def pyIsSpace (c : Char) : Bool :=
  c == ' ' || c == '\t' || c == '\n' || c == '\r' || c == '\x0b' || c == '\x0c'

/-- ASCII model of Python `str.lower` on a single character. -/
def pyLowerChar (c : Char) : Char :=
  if 65 ≤ c.toNat ∧ c.toNat ≤ 90 then Char.ofNat (c.toNat + 32) else c

/-- ASCII model of Python `str.upper` on a single character. -/
def pyUpperChar (c : Char) : Char :=
  if 97 ≤ c.toNat ∧ c.toNat ≤ 122 then Char.ofNat (c.toNat - 32) else c

/-- Python `str.lower`. -/
def pyLower (s : List Char) : List Char := s.map pyLowerChar

/-- Python `str.upper`. -/
def pyUpper (s : List Char) : List Char := s.map pyUpperChar

/-- Python `str.strip()`: drop whitespace from both ends. -/
def pyStrip (s : List Char) : List Char :=
  ((s.dropWhile pyIsSpace).reverse.dropWhile pyIsSpace).reverse

/-- Python `str.replace(old, new)` for a single-character pattern `old`
(the only form `main.py` uses): every occurrence of `old` is replaced by
the character list `new`. -/
def pyReplaceChar (old : Char) (new : List Char) (s : List Char) : List Char :=
  s.flatMap (fun c => if c == old then new else [c])

/-- Worker for `pySplit`: accumulate the current word (reversed) while
scanning. -/
def pySplitGo : List Char → List Char → List (List Char)
  | [], acc => if acc.isEmpty then [] else [acc.reverse]
  | c :: cs, acc =>
    if pyIsSpace c then
      if acc.isEmpty then pySplitGo cs [] else acc.reverse :: pySplitGo cs []
    else pySplitGo cs (c :: acc)

/-- Python `str.split()` (no arguments): split on whitespace runs, no empty
parts. -/
def pySplit (s : List Char) : List (List Char) := pySplitGo s []

/-- Python `str.split(maxsplit=n)`: at most `n` splits; once the budget is
exhausted the remainder (with leading whitespace dropped) is the final part. -/
def pySplitN : Nat → List Char → List (List Char)
  | n, s =>
    let s1 := s.dropWhile pyIsSpace
    if s1.isEmpty then []
    else
      match n with
      | 0 => [s1]
      | n + 1 => s1.takeWhile (fun c => !pyIsSpace c) ::
          pySplitN n (s1.dropWhile (fun c => !pyIsSpace c))

/-- Digits of a decimal literal, or `none` if some character is not an ASCII
digit or the list is empty. -/
def pyDigits : List Char → Option Nat
  | [] => none
  | [c] => if c.isDigit then some (c.toNat - 48) else none
  | c :: cs =>
    if c.isDigit then
      match pyDigits cs with
      | some m => some ((c.toNat - 48) * 10 ^ cs.length + m)
      | none => none
    else none

/-- Model of Python `int(s)`: optional surrounding whitespace, optional sign,
then a nonempty run of decimal digits; anything else raises `ValueError`
(modelled as `none`). -/
def pyInt (s : List Char) : Option Int :=
  match pyStrip s with
  | '+' :: ds => (pyDigits ds).map (fun n => (n : Int))
  | '-' :: ds => (pyDigits ds).map (fun n => -(n : Int))
  | ds => (pyDigits ds).map (fun n => (n : Int))

/-! ### Identity normalizer and verification store (`main.py` lines 49-97) -/

/-- Model of `format_username` (main.py:49-52): lowercase, strip surrounding
whitespace, remove every `'@'`, then prepend a single `'@'`. -/
def format_username (username : List Char) : List Char :=
  '@' :: pyReplaceChar '@' [] (pyStrip (pyLower username))

/-- A document of the MongoDB `users` collection, with the fields `main.py`
manipulates: the `username` key, an optional `service` field and an optional
legacy `source` field. -/
structure Doc where
  username : List Char
  service : Option (List Char)
  source : Option (List Char)
deriving DecidableEq, Repr

/-- The collection, in natural (insertion) order. -/
abbrev Store := List Doc

/-- The record `get_verified_user` returns after popping `source` and
defaulting `service`. -/
structure Record where
  username : List Char
  service : List Char
deriving DecidableEq, Repr

/-- The `$or` candidate keys probed by `get_verified_user` (main.py:58-65),
in the order they appear in the query document. -/
def candidates (k : List Char) : List (List Char) :=
  [k, pyLower k, pyReplaceChar '_' [] k, pyReplaceChar '_' ['-'] k]

/-- Mongo `find_one` with the `$or` filter: first document (in collection order)
whose `username` equals one of the candidate keys. -/
def find_one_or (store : Store) (ks : List (List Char)) : Option Doc :=
  store.find? (fun d => ks.contains d.username)

/-- Model of `get_verified_user` (main.py:55-74): normalize, probe the `$or` of the
candidate keys, and on a hit pop `source` and default `service` to
`"Unknown"`. -/
def get_verified_user (store : Store) (username : List Char) : Option Record :=
  match find_one_or store (candidates (format_username username)) with
  | some d => some ⟨d.username, d.service.getD "Unknown".toList⟩
  | none => none

/-- Mongo `update_one` with filter on the exact key, `$set` of `service`, and `upsert=True`:
set the `service` field of the first document whose `username` is `k`,
leaving its other fields untouched; if none matches, insert the document
`{username: k, service: svc}`. -/
def update_one_set_service (store : Store) (k svc : List Char) : Store :=
  match store with
  | [] => [⟨k, some svc, none⟩]
  | d :: ds =>
    if d.username = k then { d with service := some svc } :: ds
    else d :: update_one_set_service ds k svc

/-- Model of `save_verified_user` (main.py:77-83). -/
def save_verified_user (store : Store) (username service : List Char) : Store :=
  update_one_set_service store (format_username username) service

/-- Mongo `delete_one` by exact key: remove the first document whose
`username` is `k`. -/
def delete_one (store : Store) (k : List Char) : Store :=
  store.eraseP (fun d => d.username == k)

/-- Model of `remove_verified_user` (main.py:86-88): delete by the canonical key
only. -/
def remove_verified_user (store : Store) (username : List Char) : Store :=
  delete_one store (format_username username)

/-- The `/remove` handler's delete flow (main.py:170-174): report whether
`get_verified_user` finds a record, and delete by canonical key only when it
does.  This realizes the spec's `delete(raw_identity) -> bool`. -/
def removeFlow (store : Store) (username : List Char) : Bool × Store :=
  if (get_verified_user store username).isSome then
    (true, remove_verified_user store username)
  else (false, store)

/-- First document stored under exactly the key `k` (the claim's "stored
record for the canonical key"). -/
def lookupByKey (store : Store) (k : List Char) : Option Doc :=
  store.find? (fun d => d.username == k)

/-- The special-character set of `escape_markdown` (main.py:96),
`'_*[]()~`>#+-=|{}.!'`, in source order. -/
def specialChars : List Char := "_*[]()~`>#+-=|\x7b\x7d.!".toList

/-- Model of `escape_markdown` (main.py:95-97): prefix each character of the special
set with a backslash, pass every other character through. -/
def escape_markdown (text : List Char) : List Char :=
  text.flatMap (fun c => if specialChars.contains c then ['\\', c] else [c])

/-- The Flask `/health` endpoint (main.py:204-206): body text and HTTP
status code, as a function of the `bot_running` flag. -/
def health (bot_running : Bool) : List Char × Nat :=
  (("OK - Bot is ".toList) ++ (if bot_running then "running".toList else "stopped".toList), 200)

/-! ### Reply texts used by the handlers (verbatim from `main.py`) -/

/-- Generic error reply sent by each handler's outer `except` block. -/
def genericErrText : List Char := "An error occurred while processing your request.".toList

/-- Reply of `/add` and `/remove` to an unauthorized caller. -/
def notAuthText : List Char := "You are not authorized to use this command.".toList

/-- Usage reply of `/check`. -/
def usageCheckText : List Char :=
  "Usage:\n1. Reply to a message with /check\n2. Or use: /check username".toList

/-- Usage reply of `/add`. -/
def usageAddText : List Char := "Usage: /add username - Service".toList

/-- Usage reply of `/remove`. -/
def usageRemoveText : List Char := "Usage: /remove username".toList

/-- Reply of `/auth` to a non-owner caller. -/
def ownerOnlyText : List Char := "Only the owner can authorize users.".toList

/-- Usage reply of `/auth`. -/
def usageAuthText : List Char := "Usage: /auth <user_id>".toList

/-- Reply of `/auth` to an unparseable user id (`ValueError` branch). -/
def invalidIdText : List Char := "Please provide a valid user ID.".toList

/-- Reply of `/ping`. -/
def pongText : List Char := "Pong! Bot is working!".toList

/-- Escrow recommendation line shared by both `/check` templates
(main.py:119 and 125). -/
def escrowLine : List Char :=
  "[Scrizon](https://t\\.me/scrizon) \\| [Cupid](https://t\\.me/cupid)".toList

/-- Verified-response template of `/check` (main.py:115-120). -/
def verifiedMsg (dn svcU : List Char) : List Char :=
  "*🟢 ".toList ++ escape_markdown dn ++ " is verified for:*\n\n".toList ++
  escape_markdown svcU ++ "\n\n*💬 We still recommend using escrow:*\n".toList ++ escrowLine

/-- Not-verified-response template of `/check` (main.py:122-126). -/
def notVerifiedMsg (dn : List Char) : List Char :=
  "*🔴 ".toList ++ escape_markdown dn ++
  " is not verified\\!*\n\n*⚠️ We highly recommend using escrow:*\n".toList ++ escrowLine

/-! ### Message handlers (`main.py` lines 99-210) -/

/-- Sender of a message (`message.from_user`): numeric id and optional
display handle. -/
structure User where
  id : Int
  username : Option (List Char)

/-- An inbound message: its text, its sender, and (when the message is a
reply) the sender of the replied-to message. -/
structure Msg where
  text : List Char
  fromUser : User
  replyTo : Option User

/-- Environment oracle for a handler run: which reply texts make
`bot.reply_to` raise, and whether MongoDB operations raise. -/
structure Oracle where
  replyFail : List Char → Bool
  dbFail : Bool

/-- Process state shared by the handlers: the persisted collection and the
in-memory `authorized_users` set. -/
structure World where
  store : Store
  authorized : List Int

/-- Outcome of running one handler: final shared state, the replies that
were actually delivered, and whether an exception escaped the handler. -/
structure HResult where
  world : World
  replies : List (List Char)
  escaped : Bool

/-- A `bot.reply_to` call: on success the text is appended to the delivered
replies, on failure the pending replies are kept and the raise is
reported. -/
def doReply (o : Oracle) (acc : List (List Char)) (txt : List Char) :
    List (List Char) × Bool :=
  if o.replyFail txt then (acc, true) else (acc ++ [txt], false)

/-- The shared `try ... except Exception: logger.error(...); bot.reply_to
(message, "An error occurred ...")` wrapper of the four guarded handlers.
If the body raised, the generic reply is attempted; if that reply itself
raises, the exception escapes the handler. -/
def withCatch (o : Oracle) (body : World × List (List Char) × Bool) : HResult :=
  match body with
  | (w, rs, false) => ⟨w, rs, false⟩
  | (w, rs, true) =>
    let r := doReply o rs genericErrText
    ⟨w, r.1, r.2⟩

/-- Model of `is_authorized` (main.py:91-92). -/
def is_authorized (w : World) (u : User) : Bool := w.authorized.contains u.id

/-- Target-identity resolution of `/check` (main.py:102-108): an explicit
argument token if present, else the replied-to user's handle when that
handle is truthy (present and nonempty). -/
def resolveCheckTarget (m : Msg) : Option (List Char) :=
  let ws := pySplit m.text
  if ws.length > 1 then some (pyStrip (ws.getD 1 []))
  else
    match m.replyTo with
    | some u =>
      match u.username with
      | some un => if un.isEmpty then none else some un
      | none => none
    | none => none

/-- Body of `check_verification` inside its outer `try` (main.py:101-132). -/
def check_body (o : Oracle) (w : World) (m : Msg) :
    World × List (List Char) × Bool :=
  match resolveCheckTarget m with
  | none =>
    let r := doReply o [] usageCheckText
    (w, r.1, r.2)
  | some username =>
    if o.dbFail then (w, [], true)
    else
      let dn := pyUpper (format_username username)
      let response :=
        match get_verified_user w.store username with
        | some rec => verifiedMsg dn (pyUpper rec.service)
        | none => notVerifiedMsg dn
      if o.replyFail response then
        let plain := pyReplaceChar '\\' [] (pyReplaceChar '*' [] response)
        let r := doReply o [] plain
        (w, r.1, r.2)
      else (w, [response], false)

/-- The `/check` handler (main.py:99-135). -/
def check_verification (o : Oracle) (w : World) (m : Msg) : HResult :=
  withCatch o (check_body o w m)

/-- Body of `add_verified` inside its `try` (main.py:139-153). -/
def add_body (o : Oracle) (w : World) (m : Msg) :
    World × List (List Char) × Bool :=
  if !(is_authorized w m.fromUser) then
    let r := doReply o [] notAuthText
    (w, r.1, r.2)
  else
    let args := pySplitN 2 m.text
    if args.length ≠ 3 then
      let r := doReply o [] usageAddText
      (w, r.1, r.2)
    else
      let username := format_username (args.getD 1 [])
      let service := args.getD 2 []
      if o.dbFail then (w, [], true)
      else
        let w' := { w with store := save_verified_user w.store username service }
        let r := doReply o []
          (username ++ " has been added as verified for ".toList ++ service ++ ".".toList)
        (w', r.1, r.2)

/-- The `/add` handler (main.py:137-156). -/
def add_verified (o : Oracle) (w : World) (m : Msg) : HResult :=
  withCatch o (add_body o w m)

/-- Body of `remove_verified` inside its `try` (main.py:160-174). -/
def remove_body (o : Oracle) (w : World) (m : Msg) :
    World × List (List Char) × Bool :=
  if !(is_authorized w m.fromUser) then
    let r := doReply o [] notAuthText
    (w, r.1, r.2)
  else if (pySplit m.text).length ≠ 2 then
    let r := doReply o [] usageRemoveText
    (w, r.1, r.2)
  else
    let username := (pySplit m.text).getD 1 []
    if o.dbFail then (w, [], true)
    else if (get_verified_user w.store username).isSome then
      let w' := { w with store := remove_verified_user w.store username }
      let r := doReply o [] (username ++ " has been removed from verified users.".toList)
      (w', r.1, r.2)
    else
      let r := doReply o [] (username ++ " is not a verified user.".toList)
      (w, r.1, r.2)

/-- The `/remove` handler (main.py:158-177). -/
def remove_verified (o : Oracle) (w : World) (m : Msg) : HResult :=
  withCatch o (remove_body o w m)

/-- Insertion into the `authorized_users` set. -/
def addAuth (l : List Int) (x : Int) : List Int :=
  if l.contains x then l else l ++ [x]

/-- Body of `authorize_user` inside its outer `try` (main.py:181-195);
the inner `try/except ValueError` is the `pyInt` match. -/
def auth_body (owner : Int) (o : Oracle) (w : World) (m : Msg) :
    World × List (List Char) × Bool :=
  if m.fromUser.id ≠ owner then
    let r := doReply o [] ownerOnlyText
    (w, r.1, r.2)
  else if (pySplit m.text).length ≠ 2 then
    let r := doReply o [] usageAuthText
    (w, r.1, r.2)
  else
    match pyInt ((pySplit m.text).getD 1 []) with
    | some uid =>
      let w' := { w with authorized := addAuth w.authorized uid }
      let r := doReply o []
        ("User ".toList ++ (toString uid).toList ++ " has been authorized.".toList)
      (w', r.1, r.2)
    | none =>
      let r := doReply o [] invalidIdText
      (w, r.1, r.2)

/-- The `/auth` handler (main.py:179-198). -/
def authorize_user (owner : Int) (o : Oracle) (w : World) (m : Msg) : HResult :=
  withCatch o (auth_body owner o w m)

/-- The `/ping` handler (main.py:208-210).  It has no `try/except` of its
own: a raise in `bot.reply_to` escapes. -/
def ping_command (o : Oracle) (w : World) (m : Msg) : HResult :=
  let r := doReply o [] pongText
  ⟨w, r.1, r.2⟩

/-! ### The polling supervisor loop (`main.py` lines 212-231) -/

/-- Which `except` clause of `bot_polling` catches the fault:
`requests.exceptions.RequestException`, `telebot.apihelper.ApiException`,
or the final `except Exception`. -/
inductive FaultKind
  | network
  | api
  | other
deriving DecidableEq, Repr

/-- Control points of one iteration of the `while True:` loop of
`bot_polling`, in program order. -/
inductive PollPhase
  | loopTop
  | setFlag
  | inPolling
  | exceptLog
  | exceptSleep
  | finallyClear
  | finallySleep
deriving DecidableEq, Repr

/-- One observation of the loop: the control point and the value
`bot_running` holds there. -/
structure PollObs where
  phase : PollPhase
  bot_running : Bool
deriving DecidableEq, Repr

/-- Linearized observation trace of one iteration of `bot_polling`
(main.py:214-231), entered with `bot_running = flag0`.  `fault = some k`
means `bot.polling` raised and clause `k` caught it (log, then
`time.sleep(10)`); `fault = none` means the call returned normally.  The
`finally` block then clears the flag and sleeps another 10 seconds. -/
def pollIterObs (flag0 : Bool) (fault : Option FaultKind) : List PollObs :=
  [⟨PollPhase.loopTop, flag0⟩, ⟨PollPhase.setFlag, true⟩, ⟨PollPhase.inPolling, true⟩] ++
  (match fault with
   | some _ => [⟨PollPhase.exceptLog, true⟩, ⟨PollPhase.exceptSleep, true⟩]
   | none => []) ++
  [⟨PollPhase.finallyClear, false⟩, ⟨PollPhase.finallySleep, false⟩]

/-! ### The supervisor / liveness-monitor thread pair
(`main.py` lines 212-245 and 247-257) -/

/-- Program counter of one `bot_polling` thread, at the granularity the
concurrency claims need: about to set the flag and enter polling, inside
`bot.polling`, sleeping in an `except` clause, or sleeping in `finally`
after clearing the flag. -/
inductive LoopPC
  | start
  | polling
  | exceptSleep
  | finallySleep
deriving DecidableEq, Repr

/-- Program counter of the `keep_alive` thread: about to test
`not bot_running`, about to start a new polling thread, or sleeping. -/
inductive MonPC
  | check
  | spawn
  | sleep
deriving DecidableEq, Repr

/-- A state of the process: the shared `bot_running` flag, the program
counters of all live `bot_polling` threads, and the `keep_alive` program
counter. -/
structure Sys where
  flag : Bool
  loops : List LoopPC
  mon : MonPC
deriving DecidableEq, Repr

/-- Interleaved small-step semantics of the `bot_polling` threads and the
`keep_alive` thread.  `bot_polling` sets the flag and enters the blocking
receive, may fault into an `except` sleep, clears the flag in `finally`,
sleeps, and loops; it never exits.  `keep_alive` reads the flag in one step
and, when it read `false`, starts one fresh `bot_polling` thread in a later
step (main.py:236-240). -/
inductive Step : Sys → Sys → Prop where
  | loopEnter (s : Sys) (i : Nat) (h : s.loops.get? i = some LoopPC.start) :
      Step s ⟨true, s.loops.set i LoopPC.polling, s.mon⟩
  | loopFault (s : Sys) (i : Nat) (h : s.loops.get? i = some LoopPC.polling) :
      Step s ⟨s.flag, s.loops.set i LoopPC.exceptSleep, s.mon⟩
  | loopReturn (s : Sys) (i : Nat) (h : s.loops.get? i = some LoopPC.polling) :
      Step s ⟨false, s.loops.set i LoopPC.finallySleep, s.mon⟩
  | loopFinally (s : Sys) (i : Nat) (h : s.loops.get? i = some LoopPC.exceptSleep) :
      Step s ⟨false, s.loops.set i LoopPC.finallySleep, s.mon⟩
  | loopRestart (s : Sys) (i : Nat) (h : s.loops.get? i = some LoopPC.finallySleep) :
      Step s ⟨s.flag, s.loops.set i LoopPC.start, s.mon⟩
  | monSeesDead (s : Sys) (h1 : s.mon = MonPC.check) (h2 : s.flag = false) :
      Step s ⟨s.flag, s.loops, MonPC.spawn⟩
  | monSeesLive (s : Sys) (h1 : s.mon = MonPC.check) (h2 : s.flag = true) :
      Step s ⟨s.flag, s.loops, MonPC.sleep⟩
  | monSpawn (s : Sys) (h : s.mon = MonPC.spawn) :
      Step s ⟨s.flag, s.loops ++ [LoopPC.start], MonPC.sleep⟩
  | monWake (s : Sys) (h : s.mon = MonPC.sleep) :
      Step s ⟨s.flag, s.loops, MonPC.check⟩

/-- State right after `__main__` (main.py:247-257) starts the first
`bot_polling` thread and the `keep_alive` thread: flag still `false`, one
polling thread about to start, monitor about to check. -/
def sys0 : Sys := ⟨false, [LoopPC.start], MonPC.check⟩

/-- Reachability from the start state under the interleaving semantics. -/
inductive Reach : Sys → Prop where
  | refl : Reach sys0
  | tail {s t : Sys} (hs : Reach s) (st : Step s t) : Reach t

/-- A reachable state in which two `bot_polling` threads are simultaneously
inside the blocking receive. -/
def sysTwoPolling : Sys := ⟨true, [LoopPC.polling, LoopPC.polling], MonPC.sleep⟩

/-- Number of loop threads currently inside `bot.polling`. -/
def activePollers (s : Sys) : Nat := s.loops.countP (fun pc => pc == LoopPC.polling)

/-! ### Predicates used to state the claims, and concrete inputs -/

/-- No character of `s` is whitespace. -/
def noWs (s : List Char) : Prop := ∀ c ∈ s, pyIsSpace c = false

/-- The relation "differs only in leading '@' sigils and in letter case":
after dropping leading `'@'` characters from both strings, the remainders
agree up to (Python) lowercasing. -/
def atSigilCaseVariant (a b : List Char) : Prop :=
  pyLower (a.dropWhile (fun c => c == '@')) = pyLower (b.dropWhile (fun c => c == '@'))

/-- Oracle whose replies all succeed but whose database calls raise. -/
def oDbFail : Oracle := ⟨fun _ => false, true⟩

/-- Oracle whose replies all raise. -/
def oReplyFailAll : Oracle := ⟨fun _ => true, false⟩

/-- A world with an empty store and owner id 42 authorized. -/
def w42 : World := ⟨[], [42]⟩

/-- A `/ping` message from user 42. -/
def mPing : Msg := ⟨"/ping".toList, ⟨42, some "alice".toList⟩, none⟩

/-- A `/check alice` message from user 42. -/
def mCheck : Msg := ⟨"/check alice".toList, ⟨42, some "alice".toList⟩, none⟩

/-- A store holding one document that carries a legacy `source` field
alongside `username` and `service`. -/
def store1 : Store := [⟨"@bob".toList, some "old".toList, some "legacy".toList⟩]

/-! ### Character-level facts about the Python string model -/

theorem char_eq_of_toNat_eq {c d : Char} (h : c.toNat = d.toNat) : c = d :=
  Char.eq_of_val_eq (UInt32.ext h)

theorem char_beq_eq_decide (c d : Char) : (c == d) = decide (c.toNat = d.toNat) := by
  cases h : c == d
  · symm
    rw [decide_eq_false_iff_not]
    intro hn
    rw [char_eq_of_toNat_eq hn] at h
    simp at h
  · symm
    rw [decide_eq_true_eq]
    rw [beq_iff_eq] at h
    rw [h]

theorem charToNat_ofNat_of_lt {n : Nat} (h : n < 55296) : (Char.ofNat n).toNat = n := by
  have hv : Nat.isValidChar n := Or.inl h
  simp [Char.ofNat, hv, Char.ofNatAux, Char.toNat, UInt32.toNat]

theorem pyIsSpace_eq_decide (c : Char) : pyIsSpace c =
    decide (c.toNat = 32 ∨ c.toNat = 9 ∨ c.toNat = 10 ∨ c.toNat = 13 ∨
      c.toNat = 11 ∨ c.toNat = 12) := by
  simp only [pyIsSpace, char_beq_eq_decide, show (' ' : Char).toNat = 32 from rfl,
    show ('\t' : Char).toNat = 9 from rfl, show ('\n' : Char).toNat = 10 from rfl,
    show ('\r' : Char).toNat = 13 from rfl, show ('\x0b' : Char).toNat = 11 from rfl,
    show ('\x0c' : Char).toNat = 12 from rfl, Bool.decide_or, Bool.or_assoc]

theorem toNat_pyLowerChar (c : Char) : (pyLowerChar c).toNat =
    if 65 ≤ c.toNat ∧ c.toNat ≤ 90 then c.toNat + 32 else c.toNat := by
  unfold pyLowerChar
  split
  · next h => exact charToNat_ofNat_of_lt (by omega)
  · rfl

theorem pyIsSpace_pyLowerChar (c : Char) : pyIsSpace (pyLowerChar c) = pyIsSpace c := by
  rw [pyIsSpace_eq_decide, pyIsSpace_eq_decide, toNat_pyLowerChar]
  split
  · next h => simp only [decide_eq_decide]; omega
  · rfl

theorem pyLowerChar_idem (c : Char) : pyLowerChar (pyLowerChar c) = pyLowerChar c := by
  apply char_eq_of_toNat_eq
  rw [toNat_pyLowerChar, toNat_pyLowerChar]
  split_ifs <;> omega

theorem pyLowerChar_at : pyLowerChar '@' = '@' := by decide

/-! ### List-level facts -/

theorem dropWhile_eq_self_of_all {p : Char → Bool} {s : List Char}
    (h : ∀ c ∈ s, p c = false) : s.dropWhile p = s := by
  cases s with
  | nil => rfl
  | cons c cs =>
    rw [List.dropWhile_cons]
    rw [h c (List.mem_cons_self c cs)]
    simp

theorem pyStrip_eq_self {s : List Char} (h : ∀ c ∈ s, pyIsSpace c = false) :
    pyStrip s = s := by
  unfold pyStrip
  rw [dropWhile_eq_self_of_all h]
  rw [dropWhile_eq_self_of_all (fun c hc => h c (List.mem_reverse.mp hc))]
  exact List.reverse_reverse s

theorem noWs_pyLower {s : List Char} (h : noWs s) :
    ∀ c ∈ pyLower s, pyIsSpace c = false := by
  intro c hc
  rcases List.mem_map.mp hc with ⟨c0, hc0, rfl⟩
  rw [pyIsSpace_pyLowerChar]
  exact h c0 hc0

theorem pyReplaceChar_append (o : Char) (n a b : List Char) :
    pyReplaceChar o n (a ++ b) = pyReplaceChar o n a ++ pyReplaceChar o n b := by
  simp [pyReplaceChar]

theorem removeAts_of_all_at {a : List Char} (h : ∀ c ∈ a, c = '@') :
    pyReplaceChar '@' [] a = [] := by
  induction a with
  | nil => rfl
  | cons c cs ih =>
    have hc : c = '@' := h c (List.mem_cons_self c cs)
    simp [pyReplaceChar, hc]
    have := ih (fun d hd => h d (List.mem_cons_of_mem c hd))
    simpa [pyReplaceChar] using this

theorem mem_of_mem_pyReplaceChar_del {c : Char} {s : List Char}
    (h : c ∈ pyReplaceChar '@' [] s) : c ∈ s ∧ c ≠ '@' := by
  rcases List.mem_flatMap.mp h with ⟨c0, hc0, hmem⟩
  by_cases h0 : c0 == '@'
  · simp [h0] at hmem
  · simp [h0] at hmem
    subst hmem
    exact ⟨hc0, by simpa using h0⟩

theorem removeAts_eq_self_of_no_at {s : List Char} (h : ∀ c ∈ s, c ≠ '@') :
    pyReplaceChar '@' [] s = s := by
  induction s with
  | nil => rfl
  | cons c cs ih =>
    have hc : (c == '@') = false := by
      simpa [beq_eq_false_iff_ne] using h c (List.mem_cons_self c cs)
    simp only [pyReplaceChar, List.flatMap_cons, hc]
    simp only [Bool.false_eq_true, if_false]
    have := ih (fun d hd => h d (List.mem_cons_of_mem c hd))
    simp only [pyReplaceChar] at this
    rw [this]
    rfl

theorem removeAts_lower_dropAts (s : List Char) :
    pyReplaceChar '@' [] (pyLower s) =
    pyReplaceChar '@' [] (pyLower (s.dropWhile (fun c => c == '@'))) := by
  conv_lhs => rw [← @List.takeWhile_append_dropWhile _ (fun c => c == '@') s]
  rw [show pyLower ((s.takeWhile (fun c => c == '@')) ++ (s.dropWhile (fun c => c == '@'))) =
      pyLower (s.takeWhile (fun c => c == '@')) ++ pyLower (s.dropWhile (fun c => c == '@'))
    from List.map_append _ _ _]
  rw [pyReplaceChar_append]
  rw [removeAts_of_all_at]
  · rfl
  · intro c hc
    rcases List.mem_map.mp hc with ⟨c0, hc0, rfl⟩
    have h3 := List.mem_takeWhile_imp hc0
    simp only [beq_iff_eq] at h3
    rw [h3]
    exact pyLowerChar_at

theorem mem_pyStrip {c : Char} {s : List Char} (h : c ∈ pyStrip s) : c ∈ s := by
  unfold pyStrip at h
  rw [List.mem_reverse] at h
  have h1 := (List.dropWhile_sublist _).mem h
  rw [List.mem_reverse] at h1
  exact (List.dropWhile_sublist _).mem h1

theorem format_username_eq_of_variant {a b : List Char} (ha : noWs a) (hb : noWs b)
    (h : atSigilCaseVariant a b) : format_username a = format_username b := by
  unfold format_username
  rw [pyStrip_eq_self (noWs_pyLower ha), pyStrip_eq_self (noWs_pyLower hb)]
  rw [removeAts_lower_dropAts a, removeAts_lower_dropAts b]
  unfold atSigilCaseVariant at h
  rw [h]

theorem format_username_idem {s : List Char} (h : noWs s) :
    format_username (format_username s) = format_username s := by
  have hstrip : pyStrip (pyLower s) = pyLower s := pyStrip_eq_self (noWs_pyLower h)
  have hy : ∀ c ∈ pyReplaceChar '@' [] (pyLower s), c ∈ pyLower s ∧ c ≠ '@' :=
    fun c hc => mem_of_mem_pyReplaceChar_del hc
  conv_lhs => rw [format_username, format_username, hstrip]
  rw [format_username, hstrip]
  set y := pyReplaceChar '@' [] (pyLower s) with hydef
  have hlower : pyLower ('@' :: y) = '@' :: y := by
    unfold pyLower
    rw [List.map_cons]
    rw [pyLowerChar_at]
    congr 1
    have : ∀ c ∈ y, pyLowerChar c = c := by
      intro c hc
      rcases List.mem_map.mp (hy c hc).1 with ⟨c0, _, rfl⟩
      exact pyLowerChar_idem c0
    calc y.map pyLowerChar = y.map id := List.map_congr_left this
    _ = y := List.map_id y
  have hstrip2 : pyStrip ('@' :: y) = '@' :: y := by
    apply pyStrip_eq_self
    intro c hc
    rcases List.mem_cons.mp hc with rfl | hc
    · decide
    · rw [← pyIsSpace_pyLowerChar]
      rcases List.mem_map.mp (hy c hc).1 with ⟨c0, hc0, rfl⟩
      rw [pyLowerChar_idem]
      rw [pyIsSpace_pyLowerChar]
      exact h c0 hc0
  rw [hlower, hstrip2]
  have : pyReplaceChar '@' [] ('@' :: y) = pyReplaceChar '@' [] y := by
    simp [pyReplaceChar]
  rw [this]
  rw [removeAts_eq_self_of_no_at (fun c hc => (hy c hc).2)]

/-! ### Single-document store facts -/

theorem get_single {k svc u : List Char} {src : Option (List Char)}
    (h : format_username u = k) :
    get_verified_user [⟨k, some svc, src⟩] u = some ⟨k, svc⟩ := by
  unfold get_verified_user find_one_or
  rw [List.find?_cons_of_pos]
  · rfl
  · show (candidates (format_username u)).contains k = true
    rw [h]
    unfold candidates
    simp

theorem remove_single {k svc u : List Char} {src : Option (List Char)}
    (h : format_username u = k) :
    remove_verified_user [⟨k, some svc, src⟩] u = [] := by
  unfold remove_verified_user delete_one
  rw [h]
  rw [List.eraseP_cons_of_pos]
  simp

theorem save_empty (u svc : List Char) :
    save_verified_user [] u svc = [⟨format_username u, some svc, none⟩] := rfl

/-! ### Claim theorems -/

/-- C4 (counterexample): `save_verified_user` does not replace the stored
record in full.  Starting from a record for key `"@bob"` that carries a
`source` field, upserting a new service leaves `source` in place, so a field
of the previous record survives, contradicting the claim. -/
theorem upsert_counterexample :
    save_verified_user store1 "@bob".toList "new".toList =
      [⟨"@bob".toList, some "new".toList, some "legacy".toList⟩] ∧
    (lookupByKey (save_verified_user store1 "@bob".toList "new".toList) "@bob".toList).map
      Doc.source ≠ some none := by
  constructor
  · decide
  · decide

/-- C4 (amended): the upsert sets only the `service` field of the first
record stored under the canonical key (creating `{username, service}` when
no record exists); every other field (`source`) survives from the
previously stored record. -/
theorem upsert_sets_service_only : ∀ (store : Store) (u svc : List Char),
    lookupByKey (save_verified_user store u svc) (format_username u) =
      some ⟨format_username u, some svc,
        match lookupByKey store (format_username u) with
        | some d => d.source
        | none => none⟩ := by
  intro store u svc
  unfold save_verified_user lookupByKey
  generalize format_username u = k
  induction store with
  | nil =>
    simp [update_one_set_service, List.find?]
  | cons d ds ih =>
    by_cases h : d.username = k
    · rw [show update_one_set_service (d :: ds) k svc =
        { d with service := some svc } :: ds from by simp [update_one_set_service, h]]
      rw [List.find?_cons_of_pos _ (by simpa using h)]
      rw [List.find?_cons_of_pos _ (by simpa using h)]
      simp [h]
    · rw [show update_one_set_service (d :: ds) k svc =
        d :: update_one_set_service ds k svc from by simp [update_one_set_service, h]]
      rw [List.find?_cons_of_neg _ (by simpa using h)]
      rw [List.find?_cons_of_neg _ (by simpa using h)]
      exact ih

/-- C5 (counterexample): the remove flow reports `true` for an identity
whose record is stored only under a legacy-variant key, although no record
exists for the canonical key `"@a_b"` — so the returned boolean does not
report existence *for the canonical key*. -/
theorem delete_reports_legacy_hit :
    (removeFlow [⟨"@a-b".toList, some "x".toList, none⟩] "a_b".toList).1 = true ∧
    lookupByKey [⟨"@a-b".toList, some "x".toList, none⟩]
      (format_username "a_b".toList) = none := by
  constructor
  · decide
  · decide

/-- C5 (amended): the remove flow returns whether `get_verified_user` finds
a record under *any* lookup candidate; on a record upserted under its
canonical key the stated scenario holds: the first delete returns `true`
and empties the store, `get` then returns absent, and a second delete
returns `false`. -/
theorem delete_roundtrip : ∀ u svc : List Char,
    removeFlow (save_verified_user [] u svc) u = (true, []) ∧
    get_verified_user ([] : Store) u = none ∧
    removeFlow ([] : Store) u = (false, []) := by
  intro u svc
  rw [save_empty]
  have hget := @get_single (format_username u) svc u none rfl
  refine ⟨?_, rfl, rfl⟩
  unfold removeFlow
  rw [hget]
  rw [@remove_single (format_username u) svc u none rfl]
  rfl

/-- C6 (confirmed): a record stored only under a proper legacy variant `v`
of the canonical key (underscore-removed or underscore-to-hyphen, with
`v ≠` canonical) is found by `get_verified_user`, is untouched by
`remove_verified_user` (which deletes the canonical key only), and is still
found after the delete. -/
theorem legacy_found_but_undeletable : ∀ (u v svc : List Char),
    (v = pyReplaceChar '_' [] (format_username u) ∨
     v = pyReplaceChar '_' ['-'] (format_username u)) →
    v ≠ format_username u →
    get_verified_user [⟨v, some svc, none⟩] u = some ⟨v, svc⟩ ∧
    remove_verified_user [⟨v, some svc, none⟩] u = [⟨v, some svc, none⟩] ∧
    get_verified_user (remove_verified_user [⟨v, some svc, none⟩] u) u
      = some ⟨v, svc⟩ := by
  intro u v svc hv hne
  have hget : get_verified_user [⟨v, some svc, none⟩] u = some ⟨v, svc⟩ := by
    unfold get_verified_user find_one_or
    rw [List.find?_cons_of_pos]
    · rfl
    · show (candidates (format_username u)).contains v = true
      unfold candidates
      rcases hv with rfl | rfl <;> simp
  have hrm : remove_verified_user [⟨v, some svc, none⟩] u = [⟨v, some svc, none⟩] := by
    unfold remove_verified_user delete_one
    rw [List.eraseP_cons_of_neg]
    · rfl
    · simpa [beq_eq_false_iff_ne] using hne
  exact ⟨hget, hrm, by rw [hrm]; exact hget⟩

/-- Witness for the C6 theorem at `u = "a_b"`, `v = "@a-b"`, `svc = "x"`. -/
theorem legacy_found_but_undeletable_w :
    get_verified_user [⟨"@a-b".toList, some "x".toList, none⟩] "a_b".toList
      = some ⟨"@a-b".toList, "x".toList⟩ ∧
    remove_verified_user [⟨"@a-b".toList, some "x".toList, none⟩] "a_b".toList
      = [⟨"@a-b".toList, some "x".toList, none⟩] ∧
    get_verified_user
      (remove_verified_user [⟨"@a-b".toList, some "x".toList, none⟩] "a_b".toList)
      "a_b".toList = some ⟨"@a-b".toList, "x".toList⟩ :=
  legacy_found_but_undeletable "a_b".toList "@a-b".toList "x".toList
    (Or.inr (by decide)) (by decide)

/-- C7 (counterexample): `" alice"` differs from `"@ alice"` only by the
leading `'@'` sigil, yet after upserting under `"@ alice"` (canonical key
`"@ alice"`, kept verbatim because the space is protected by the sigil
during strip) a `get` with `" alice"` (canonical key `"@alice"`) finds
nothing. -/
theorem variant_roundtrip_counterexample :
    atSigilCaseVariant "@ alice".toList " alice".toList ∧
    get_verified_user (save_verified_user [] "@ alice".toList "s".toList)
      " alice".toList = none := by
  constructor
  · unfold atSigilCaseVariant
    decide
  · decide

/-- C7 (amended): for whitespace-free identities, upsert followed by get
returns the stored service whenever the two identity arguments differ only
in leading `'@'` sigils and letter case. -/
theorem upsert_get_across_variants : ∀ (a b svc : List Char),
    noWs a → noWs b → atSigilCaseVariant a b →
    (get_verified_user (save_verified_user [] a svc) b).map Record.service
      = some svc := by
  intro a b svc ha hb hab
  rw [save_empty]
  rw [@get_single (format_username a) svc b none
    (format_username_eq_of_variant hb ha (Eq.symm hab))]
  rfl

/-- Witness for the C7 theorem at `a = "@Alice"`, `b = "alice"`,
`svc = "x"`. -/
theorem upsert_get_across_variants_w :
    (get_verified_user (save_verified_user [] "@Alice".toList "x".toList)
      "alice".toList).map Record.service = some "x".toList :=
  upsert_get_across_variants "@Alice".toList "alice".toList "x".toList
    (by unfold noWs; decide) (by unfold noWs; decide)
    (by unfold atSigilCaseVariant; decide)

/-- C8 (counterexample): the normalizer is not idempotent on `"a @"`:
one pass yields `"@a "` (the strip happens before the `'@'` removal exposes
the trailing space), a second pass strips that space and yields `"@a"`. -/
theorem format_username_not_idempotent :
    format_username (format_username "a @".toList) ≠ format_username "a @".toList := by
  decide

/-- C8 (amended): the normalizer is idempotent on every identity string
that contains no whitespace. -/
theorem format_username_idem_of_noWs : ∀ s : List Char,
    noWs s → format_username (format_username s) = format_username s := by
  intro s h
  exact format_username_idem h

/-- Witness for the C8 theorem at `s = "@Bob"`. -/
theorem format_username_idem_of_noWs_w :
    format_username (format_username "@Bob".toList) = format_username "@Bob".toList :=
  format_username_idem_of_noWs "@Bob".toList (by unfold noWs; decide)

/-- C9 (counterexample): backslash is not in the code's special-character
set, so `escape_markdown` passes a backslash through unchanged instead of
prefixing it with a backslash as the claim requires. -/
theorem escape_markdown_backslash_unescaped :
    escape_markdown ['\\'] = ['\\'] ∧ specialChars.contains '\\' = false := by
  constructor
  · decide
  · decide

/-- C9 (amended): `escape_markdown` escapes exactly the set
`_*[]()~`>#+-=|{}.!` (which does not contain the backslash): every
occurrence of a character of the set is prefixed with a backslash, and
every other character — the backslash included — passes through
unchanged. -/
theorem escape_markdown_spec : ∀ (xs ys : List Char) (c : Char),
    (specialChars.contains c = true →
      escape_markdown (xs ++ c :: ys)
        = escape_markdown xs ++ '\\' :: c :: escape_markdown ys) ∧
    (specialChars.contains c = false →
      escape_markdown (xs ++ c :: ys)
        = escape_markdown xs ++ c :: escape_markdown ys) := by
  intro xs ys c
  constructor <;> intro h <;>
    rw [show specialChars.contains c = decide (c ∈ specialChars) from
      List.elem_eq_mem c specialChars] at h <;>
    [rw [decide_eq_true_eq] at h; rw [decide_eq_false_iff_not] at h] <;>
    simp [escape_markdown, List.flatMap_append, List.flatMap_cons, h]

/-- Witness for the C9 theorem: the dot is escaped, an `'a'` is not. -/
theorem escape_markdown_spec_w :
    escape_markdown ('.' :: "a".toList) = '\\' :: '.' :: escape_markdown "a".toList := by
  have h := (escape_markdown_spec [] "a".toList '.').1 (by decide)
  simpa using h

/-- C10 (confirmed): the `/health` endpoint returns HTTP 200 for both
values of the liveness flag; only the free-text body differs between
`running` and `stopped`. -/
theorem health_always_200 :
    (∀ b : Bool, (health b).2 = 200) ∧
    (health true).1 = "OK - Bot is running".toList ∧
    (health false).1 = "OK - Bot is stopped".toList := by
  refine ⟨fun b => ?_, ?_, ?_⟩
  · cases b <;> rfl
  · decide
  · decide

/-- C1 (counterexample): in a faulting iteration of `bot_polling` the
observation point inside the `except` clause's backoff sleep — after the
fault was caught, before the loop re-enters polling — still reads
`bot_running = true`, although the loop is not inside its blocking receive
there. -/
theorem liveness_flag_true_after_fault :
    (⟨PollPhase.exceptSleep, true⟩ : PollObs)
      ∈ pollIterObs false (some FaultKind.network) ∧
    PollPhase.exceptSleep ≠ PollPhase.inPolling := by
  constructor
  · decide
  · decide

/-- C1 (amended): in an iteration entered with the flag down, the flag
reads `true` from the moment it is set just before the blocking receive,
through the receive call, and — after a fault — through the `except`
clause's log and backoff sleep; it reads `false` only once the `finally`
block clears it and during the `finally` sleep. -/
theorem liveness_flag_phases : ∀ (k : Option FaultKind) (obs : PollObs),
    obs ∈ pollIterObs false k →
    (obs.bot_running = true ↔
      (obs.phase = PollPhase.setFlag ∨ obs.phase = PollPhase.inPolling ∨
       obs.phase = PollPhase.exceptLog ∨ obs.phase = PollPhase.exceptSleep)) := by
  intro k obs h
  rcases k with _ | fk
  · simp only [pollIterObs, List.append_assoc, List.cons_append, List.nil_append,
      List.mem_cons, List.not_mem_nil, or_false] at h
    rcases h with rfl | rfl | rfl | rfl | rfl <;> decide
  · simp only [pollIterObs, List.append_assoc, List.cons_append, List.nil_append,
      List.mem_cons, List.not_mem_nil, or_false] at h
    rcases h with rfl | rfl | rfl | rfl | rfl | rfl | rfl <;> decide

/-- Witness for the C1 theorem at the `except`-sleep observation of a
faulting iteration. -/
theorem liveness_flag_phases_w :
    (⟨PollPhase.exceptSleep, true⟩ : PollObs).bot_running = true ↔
      ((⟨PollPhase.exceptSleep, true⟩ : PollObs).phase = PollPhase.setFlag ∨
       (⟨PollPhase.exceptSleep, true⟩ : PollObs).phase = PollPhase.inPolling ∨
       (⟨PollPhase.exceptSleep, true⟩ : PollObs).phase = PollPhase.exceptLog ∨
       (⟨PollPhase.exceptSleep, true⟩ : PollObs).phase = PollPhase.exceptSleep) :=
  liveness_flag_phases (some FaultKind.network) ⟨PollPhase.exceptSleep, true⟩ (by decide)

/-- C2 (counterexample): a state with two `bot_polling` threads
simultaneously inside the blocking receive is reachable: the monitor reads
the flag while the first thread has not yet set it, commits to spawning,
and both threads then enter polling. -/
theorem two_pollers_reachable :
    Reach sysTwoPolling ∧ activePollers sysTwoPolling = 2 := by
  constructor
  · have h1 : Reach (⟨false, [LoopPC.start], MonPC.spawn⟩ : Sys) :=
      Reach.tail Reach.refl (Step.monSeesDead sys0 rfl rfl)
    have h2 : Reach (⟨false, [LoopPC.start, LoopPC.start], MonPC.sleep⟩ : Sys) :=
      Reach.tail h1 (Step.monSpawn _ rfl)
    have h3 : Reach (⟨true, [LoopPC.polling, LoopPC.start], MonPC.sleep⟩ : Sys) :=
      Reach.tail h2 (Step.loopEnter _ 0 rfl)
    exact Reach.tail h3 (Step.loopEnter _ 1 rfl)
  · decide

/-- C2 (amended): the number of loop threads changes only when the monitor
executes its spawn step (each loop thread restarts itself in place), and
the monitor commits to spawning only upon reading the flag `false`; this
does not prevent the spawned thread and the surviving old one from polling
simultaneously. -/
theorem spawn_only_after_dead_read : ∀ s t : Sys, Step s t →
    (t.loops.length = s.loops.length ∨
      (s.mon = MonPC.spawn ∧ t.loops.length = s.loops.length + 1)) ∧
    (s.mon = MonPC.check → t.mon = MonPC.spawn → s.flag = false) := by
  intro s t hst
  cases hst with
  | loopEnter i h => exact ⟨Or.inl (by simp), fun h1 h2 => by rw [h1] at h2; cases h2⟩
  | loopFault i h => exact ⟨Or.inl (by simp), fun h1 h2 => by rw [h1] at h2; cases h2⟩
  | loopReturn i h => exact ⟨Or.inl (by simp), fun h1 h2 => by rw [h1] at h2; cases h2⟩
  | loopFinally i h => exact ⟨Or.inl (by simp), fun h1 h2 => by rw [h1] at h2; cases h2⟩
  | loopRestart i h => exact ⟨Or.inl (by simp), fun h1 h2 => by rw [h1] at h2; cases h2⟩
  | monSeesDead h1 h2 => exact ⟨Or.inl rfl, fun _ _ => h2⟩
  | monSeesLive h1 h2 => exact ⟨Or.inl rfl, fun _ h => by cases h⟩
  | monSpawn h => exact ⟨Or.inr ⟨h, by simp⟩, fun h1 _ => by rw [h] at h1; cases h1⟩
  | monWake h => exact ⟨Or.inl rfl, fun _ h => by cases h⟩

/-- Witness for the C2 theorem at the start state's dead-read step. -/
theorem spawn_only_after_dead_read_w : sys0.flag = false :=
  (spawn_only_after_dead_read sys0 ⟨sys0.flag, sys0.loops, MonPC.spawn⟩
    (Step.monSeesDead sys0 rfl rfl)).2 rfl rfl

/-- C3 (counterexample): two failure modes of the claim.  `/ping` has no
handler-level `try/except`: with a reply primitive that raises, the
exception escapes the handler and no generic error reply is produced.  And
even a guarded handler lets the exception escape when the generic error
reply itself raises: with every reply failing, `/check`'s markdown reply,
its plain fallback, and then the outer `except` block's generic reply all
raise, and the last raise propagates out of the handler. -/
theorem handler_exception_escapes :
    (ping_command oReplyFailAll w42 mPing).escaped = true ∧
    (ping_command oReplyFailAll w42 mPing).replies = [] ∧
    (check_verification oReplyFailAll w42 mCheck).escaped = true := by
  refine ⟨rfl, rfl, ?_⟩
  rfl

/-- C3 (amended): for every message, store, database fault pattern and
reply fault pattern under which the generic error reply is deliverable,
each of the four guarded handlers (`check`, `add`, `remove`, `auth`)
returns its body's state and replies with `escaped = false`, and the
delivered replies end with the generic `"An error occurred while
processing your request."` exactly when the body raised — the caught
exception is converted into the delivered generic reply and never escapes.
`ping` by contrast has no guard, and an exception escapes it exactly when
its reply raises. -/
theorem guarded_handlers_convert_exceptions :
    ∀ (owner : Int) (o : Oracle) (w : World) (m : Msg),
    o.replyFail genericErrText = false →
    check_verification o w m = ⟨(check_body o w m).1,
      (check_body o w m).2.1 ++
        (if (check_body o w m).2.2 then [genericErrText] else []), false⟩ ∧
    add_verified o w m = ⟨(add_body o w m).1,
      (add_body o w m).2.1 ++
        (if (add_body o w m).2.2 then [genericErrText] else []), false⟩ ∧
    remove_verified o w m = ⟨(remove_body o w m).1,
      (remove_body o w m).2.1 ++
        (if (remove_body o w m).2.2 then [genericErrText] else []), false⟩ ∧
    authorize_user owner o w m = ⟨(auth_body owner o w m).1,
      (auth_body owner o w m).2.1 ++
        (if (auth_body owner o w m).2.2 then [genericErrText] else []), false⟩ ∧
    (ping_command o w m).escaped = o.replyFail pongText := by
  intro owner o w m h
  have key : ∀ b, withCatch o b =
      ⟨b.1, b.2.1 ++ (if b.2.2 then [genericErrText] else []), false⟩ := by
    intro b
    obtain ⟨w', rs, raised⟩ := b
    cases raised
    · simp [withCatch]
    · simp [withCatch, doReply, h]
  refine ⟨key _, key _, key _, key _, ?_⟩
  cases hp : o.replyFail pongText <;> simp [ping_command, doReply, hp]

/-- Witness for the C3 theorem: owner 42, an oracle whose database raises
but whose replies succeed, the empty-store world, and a `/check` message
(whose body raises at the database call, so the delivered replies are
exactly the generic error reply). -/
theorem guarded_handlers_convert_exceptions_w :
    check_verification oDbFail w42 mCheck = ⟨(check_body oDbFail w42 mCheck).1,
      (check_body oDbFail w42 mCheck).2.1 ++
        (if (check_body oDbFail w42 mCheck).2.2 then [genericErrText] else []), false⟩ ∧
    add_verified oDbFail w42 mCheck = ⟨(add_body oDbFail w42 mCheck).1,
      (add_body oDbFail w42 mCheck).2.1 ++
        (if (add_body oDbFail w42 mCheck).2.2 then [genericErrText] else []), false⟩ ∧
    remove_verified oDbFail w42 mCheck = ⟨(remove_body oDbFail w42 mCheck).1,
      (remove_body oDbFail w42 mCheck).2.1 ++
        (if (remove_body oDbFail w42 mCheck).2.2 then [genericErrText] else []), false⟩ ∧
    authorize_user 42 oDbFail w42 mCheck = ⟨(auth_body 42 oDbFail w42 mCheck).1,
      (auth_body 42 oDbFail w42 mCheck).2.1 ++
        (if (auth_body 42 oDbFail w42 mCheck).2.2 then [genericErrText] else []), false⟩ ∧
    (ping_command oDbFail w42 mCheck).escaped = oDbFail.replyFail pongText :=
  guarded_handlers_convert_exceptions 42 oDbFail w42 mCheck rfl
